import Mathlib

/-!
# Verification of the oracle-world resilient request layer

Shallow embedding of the request Executor (`BaseAPIClient._makeRequest`,
`_getExponentialBackoff`, `_validateParams` in `scripts/api/base-client.js`)
and of the request Scheduler (`QueueManager` in
`scripts/services/queue-manager.js`), with theorems checking the
natural-language specification against the code.
-/

namespace OracleWorld

/-- The error taxonomy of `constants.js` (`ERROR_TYPES`).  `STORAGE_ERROR`
exists in the constant table but is never produced by the request layer;
the five kinds the spec names are the ones below plus it. -/
inductive ErrorType where
  | RATE_LIMIT
  | AUTH_ERROR
  | NETWORK_ERROR
  | VALIDATION_ERROR
  | STORAGE_ERROR
  | GENERIC_ERROR
deriving DecidableEq, Repr

/-- Details attached to an error by `_createError` call sites. -/
inductive ErrorDetails where
  /-- no details, `{}` -/
  | emptyD
  /-- `{ status, retryAfter }` from the 429 branch -/
  | rateLimitD (status : Nat) (retryAfter : Option Nat)
  /-- `{ status }` from the 401/403 branch -/
  | authD (status : Nat)
  /-- `{ status, data }` from the generic non-ok branch -/
  | genericD (status : Nat)
  /-- `{ timeout }` from the abort branch -/
  | timeoutD (timeout : Nat)
  /-- `{ originalError, url }` from the fetch TypeError branch -/
  | networkD (originalError : String)
  /-- `{ missing }` from `_validateParams` -/
  | missingD (missing : List String)
deriving DecidableEq, Repr

/-- A JavaScript error value as seen by the catch block of `_makeRequest`:
its `name`, `message`, its `type` field (set by `_createError`, absent —
hence falsy — on raw transport/library errors) and its `details`. -/
structure JSError where
  name : String
  message : String
  etype : Option ErrorType
  details : ErrorDetails
deriving DecidableEq, Repr

/-- `_createError(type, message, details)`: a plain `Error` (so its JS
`name` is `"Error"`) with `type` and `details` fields attached. -/
def createError (t : ErrorType) (message : String) (details : ErrorDetails) : JSError :=
  { name := "Error", message := message, etype := some t, details := details }

/-- `_getExponentialBackoff(attempt)` with `Math.random()` made explicit as
the argument `rand ∈ [0,1)`:
`min(baseDelay * 2^attempt, maxDelay) + rand * 1000` with
`baseDelay = 1000`, `maxDelay = 30000`.  Milliseconds, as a rational. -/
def getExponentialBackoff (attempt : Nat) (rand : ℚ) : ℚ :=
  min (1000 * 2 ^ attempt) 30000 + rand * 1000

/-- The body parse of a 2xx response: `await response.json()` either
yields data or throws a raw error. -/
inductive ParseResult (α : Type) where
  | ok (data : α)
  | fail (e : JSError)
deriving DecidableEq, Repr

/-- What the environment does on one attempt of `_makeRequest`: either
`fetch` resolves to a response (with HTTP status, optional numeric
`retry-after` header in seconds, an error message recovered from the body
for non-ok statuses, and the parse result of the body for ok statuses), or
the awaited call throws (timeout `AbortError`, transport `TypeError`,
or any other library error). -/
inductive FetchOutcome (α : Type) where
  | response (status : Nat) (retryAfter : Option Nat) (errMessage : String)
      (body : ParseResult α)
  | thrown (e : JSError)
deriving DecidableEq, Repr

/-- `Response.ok`: status in the inclusive range 200–299. -/
def responseOk (status : Nat) : Bool :=
  200 ≤ status && status ≤ 299

/-- Result of one iteration of the attempt loop: settle (return or throw),
or sleep for `delay` milliseconds and continue with the next attempt. -/
inductive StepResult (α : Type) where
  | done (r : Except JSError α)
  | retry (delay : ℚ)
deriving Repr

/-- The catch block of `_makeRequest`, for the error `e` raised during
attempt `attempt` out of `retries + 1`.  Checks are in source order:
`AUTH_ERROR` type, `VALIDATION_ERROR` type, `AbortError` name,
`TypeError` name with a message mentioning `fetch`, any truthy `type`
(rethrow), and finally the untyped fallback which retries while attempts
remain and otherwise lets the loop exit so that the raw `lastError = e`
is thrown after the loop. -/
def catchBlock {α : Type} (timeout : Nat) (retries attempt : Nat) (rand : ℚ)
    (e : JSError) : StepResult α :=
  if e.etype = some ErrorType.AUTH_ERROR then
    .done (.error e)
  else if e.etype = some ErrorType.VALIDATION_ERROR then
    .done (.error e)
  else if e.name = "AbortError" then
    if attempt < retries then
      .retry (getExponentialBackoff attempt rand)
    else
      .done (.error (createError .NETWORK_ERROR "Request timed out"
        (.timeoutD timeout)))
  else if e.name = "TypeError" ∧ (e.message.splitOn "fetch").length > 1 then
    if attempt < retries then
      .retry (getExponentialBackoff attempt rand)
    else
      .done (.error (createError .NETWORK_ERROR ("Network error: " ++ e.message)
        (.networkD e.message)))
  else if e.etype.isSome then
    .done (.error e)
  else if attempt < retries then
    .retry (getExponentialBackoff attempt rand)
  else
    .done (.error e)

/-- One iteration of the `for` loop of `_makeRequest` (try block plus catch
block), for attempt index `attempt`, given the outcome the environment
produces for this attempt and the `Math.random()` draw used if a backoff
is computed. -/
def attemptStep {α : Type} (timeout : Nat) (retries attempt : Nat) (rand : ℚ)
    (out : FetchOutcome α) : StepResult α :=
  match out with
  | .thrown e => catchBlock timeout retries attempt rand e
  | .response status retryAfter errMessage body =>
    if status = 429 then
      -- rate-limit branch: wait retry-after seconds if present, else backoff
      let delay : ℚ := match retryAfter with
        | some s => (s : ℚ) * 1000
        | none => getExponentialBackoff attempt rand
      if attempt < retries then
        .retry delay
      else
        -- the created RATE_LIMIT error is thrown, caught, and rethrown
        -- by the catch block since its type field is truthy
        catchBlock timeout retries attempt rand
          (createError .RATE_LIMIT "Rate limit exceeded"
            (.rateLimitD status retryAfter))
    else if status = 401 ∨ status = 403 then
      catchBlock timeout retries attempt rand
        (createError .AUTH_ERROR "Authentication failed" (.authD status))
    else if !responseOk status then
      catchBlock timeout retries attempt rand
        (createError .GENERIC_ERROR ("API error: " ++ errMessage)
          (.genericD status))
    else
      match body with
      | .ok data => .done (.ok data)
      | .fail e => catchBlock timeout retries attempt rand e

/-- The attempt loop of `_makeRequest` from attempt index `attempt`, with
enough fuel; returns the settled result together with the list of delays
slept between attempts (in order).  `oracle i` is the behaviour of the
environment on attempt `i`, `rand i` the `Math.random()` draw of attempt
`i`.  A `.retry` step only arises when `attempt < retries`, so fuel
`retries + 1 - attempt` always suffices; the out-of-fuel value is never
reached from `makeRequest`. -/
def runLoop {α : Type} (timeout : Nat) (retries : Nat)
    (oracle : Nat → FetchOutcome α) (rand : Nat → ℚ) :
    Nat → Nat → Except JSError α × List ℚ
  | 0, _ => (.error (createError .GENERIC_ERROR "out of fuel" .emptyD), [])
  | fuel + 1, attempt =>
    match attemptStep timeout retries attempt (rand attempt) (oracle attempt) with
    | .done r => (r, [])
    | .retry d =>
      let rec_ := runLoop timeout retries oracle rand fuel (attempt + 1)
      (rec_.1, d :: rec_.2)

/-- `_makeRequest` as a whole: run the loop from attempt 0.  The number of
network attempts made equals one plus the number of sleeps recorded. -/
def makeRequest {α : Type} (timeout : Nat) (retries : Nat)
    (oracle : Nat → FetchOutcome α) (rand : Nat → ℚ) :
    Except JSError α × List ℚ :=
  runLoop timeout retries oracle rand (retries + 1) 0

/-! ## Queue Manager (`scripts/services/queue-manager.js`) -/

/-- `_isRateLimitError(error)`: `error.type === ERROR_TYPES.RATE_LIMIT`. -/
def isRateLimitError (e : JSError) : Bool :=
  e.etype = some ErrorType.RATE_LIMIT

/-- Per-provider rate-limit record held in `this.rateLimits`:
`{ count, resetTime }`.  Timestamps are `Date.now()` milliseconds. -/
structure RateLimitState where
  count : Nat
  resetTime : ℤ
deriving DecidableEq, Repr

/-- The `rateLimits` map, as a function from provider key to the stored
record (`none` when the key is absent). -/
def RateLimits := String → Option RateLimitState

/-- `_updateRateLimit(provider)` at current time `now`: read the record
(defaulting to `{ count: 0, resetTime: now + 60000 }`); if the window has
elapsed (`now >= resetTime`) open a fresh one with count 1, otherwise
increment the count in place. -/
def updateRateLimit (rateLimits : RateLimits) (provider : String) (now : ℤ) :
    RateLimits :=
  let limit := (rateLimits provider).getD { count := 0, resetTime := now + 60000 }
  if limit.resetTime ≤ now then
    fun p => if p = provider then some { count := 1, resetTime := now + 60000 }
             else rateLimits p
  else
    fun p => if p = provider then some { count := limit.count + 1,
                                         resetTime := limit.resetTime }
             else rateLimits p

/-- Duration waited by `_checkRateLimit(provider)` at time `now`: zero when
no record exists or the window has elapsed, otherwise the remainder of the
window. -/
def checkRateLimitWait (rateLimits : RateLimits) (provider : String) (now : ℤ) : ℤ :=
  match rateLimits provider with
  | none => 0
  | some limit => if now < limit.resetTime then limit.resetTime - now else 0

/-- Duration waited by `_waitForRateLimit(provider)` at time `now`:
zero when no record exists, otherwise `max(0, resetTime - now)`. -/
def waitForRateLimitWait (rateLimits : RateLimits) (provider : String) (now : ℤ) : ℤ :=
  match rateLimits provider with
  | none => 0
  | some limit => max 0 (limit.resetTime - now)

/-- Outcome of one invocation of `item.request.execute()`. -/
inductive ExecOutcome where
  | success (v : Nat)
  | failure (e : JSError)
deriving DecidableEq, Repr

/-- A queue entry together with the behaviour of its work unit: the unit
throws `RATE_LIMIT` on its first `rl` invocations and settles with `final`
on the next one; `attempt` counts the invocations made so far. -/
structure Entry where
  id : Nat
  provider : String
  rl : Nat
  final : ExecOutcome
  attempt : Nat := 0
deriving DecidableEq, Repr

/-- The outcome `item.request.execute()` produces for `e` at its current
attempt counter. -/
def execOutcome (e : Entry) : ExecOutcome :=
  if e.attempt < e.rl then
    .failure (createError .RATE_LIMIT "Rate limit exceeded" (.rateLimitD 429 none))
  else
    e.final

/-- The entry as requeued by `this.queue.unshift(item)` after a
rate-limited invocation: same unit, next attempt. -/
def bumpAttempt (e : Entry) : Entry :=
  { e with attempt := e.attempt + 1 }

/-- Observable event of a drain: an invocation of the work unit of entry
`id` (with its attempt ordinal), or its settlement. -/
inductive QEvent where
  | executed (id : Nat) (attempt : Nat)
  | fulfilled (id : Nat) (v : Nat)
  | rejected (id : Nat) (e : JSError)
deriving DecidableEq, Repr

/-- The entry an event belongs to. -/
def QEvent.entryId : QEvent → Nat
  | .executed i _ => i
  | .fulfilled i _ => i
  | .rejected i _ => i

/-- The drain loop of `_processQueue`, run to completion on a queue with
no concurrent enqueues: shift the head, run its unit; on success or a
non-rate-limit failure settle it, on a rate-limit failure unshift it back
at the head and run it again.  `fuel` bounds the number of invocations
(the code itself has no bound: a unit that keeps throwing `RATE_LIMIT`
is requeued forever). -/
def drainQueue : Nat → List Entry → List QEvent
  | 0, _ => []
  | _, [] => []
  | fuel + 1, e :: rest =>
    match execOutcome e with
    | .success v =>
      .executed e.id e.attempt :: .fulfilled e.id v :: drainQueue fuel rest
    | .failure err =>
      if isRateLimitError err then
        .executed e.id e.attempt :: drainQueue fuel (bumpAttempt e :: rest)
      else
        .executed e.id e.attempt :: .rejected e.id err :: drainQueue fuel rest

/-- The events one entry contributes to a full drain: one `executed` event
per invocation (attempts `e.attempt` through `e.rl`), then its
settlement. -/
def entryTrace (e : Entry) : List QEvent :=
  (List.range (e.rl - e.attempt + 1)).map (fun k => .executed e.id (e.attempt + k)) ++
    [match e.final with
     | .success v => .fulfilled e.id v
     | .failure err => .rejected e.id err]

/-- Invocations a drain of this entry still needs: attempts left plus one. -/
def entryCost (e : Entry) : Nat := e.rl - e.attempt + 1

/-- Total invocations a drain of this queue needs. -/
def queueCost (q : List Entry) : Nat := (q.map entryCost).sum

/-- An entry whose settlement is not itself a rate-limit failure (its
requeue loop terminates). -/
def settles (e : Entry) : Prop :=
  ∀ err, e.final = .failure err → isRateLimitError err = false

/-! ## Small-step state machine of the queue manager

States record the pending queue, the entry currently shifted out and
executing (between `this.queue.shift()` and its settlement or requeue),
the number of entries settled so far, and the `rateLimits` map. -/

structure QMState where
  queue : List Entry
  inFlight : Option Entry
  resolvedCount : Nat
  rateLimits : RateLimits

/-- `getQueueLength()`: `this.queue.length`. -/
def getQueueLength (s : QMState) : Nat := s.queue.length

/-- One externally observable transition of the queue manager:
`enqueue` pushes an entry at the back; `dequeue` is the
`this.queue.shift()` at the start of a drain step (the in-flight entry is
no longer in the queue while its unit runs); the three `settle` steps are
the outcomes of the awaited unit: fulfilment (which also runs
`_updateRateLimit` at the current time `now`), rejection, and the
rate-limit requeue (`this.queue.unshift(item)`). -/
inductive QMStep : QMState → QMState → Prop where
  | enqueue (s : QMState) (e : Entry) :
      QMStep s { s with queue := s.queue ++ [e] }
  | dequeue (s : QMState) (e : Entry) (rest : List Entry)
      (hfree : s.inFlight = none) (hq : s.queue = e :: rest) :
      QMStep s { s with queue := rest, inFlight := some e }
  | settleSuccess (s : QMState) (e : Entry) (v : Nat) (now : ℤ)
      (hin : s.inFlight = some e) (hout : execOutcome e = .success v) :
      QMStep s { queue := s.queue, inFlight := none,
                 resolvedCount := s.resolvedCount + 1,
                 rateLimits := updateRateLimit s.rateLimits e.provider now }
  | settleReject (s : QMState) (e : Entry) (err : JSError)
      (hin : s.inFlight = some e) (hout : execOutcome e = .failure err)
      (hnotrl : isRateLimitError err = false) :
      QMStep s { s with inFlight := none,
                        resolvedCount := s.resolvedCount + 1 }
  | requeueRateLimit (s : QMState) (e : Entry) (err : JSError)
      (hin : s.inFlight = some e) (hout : execOutcome e = .failure err)
      (hrl : isRateLimitError err = true) :
      QMStep s { s with queue := bumpAttempt e :: s.queue, inFlight := none }

/-! ## Parameter validation (`BaseAPIClient._validateParams`) -/

/-- A JavaScript value as tested by `!params[key]`. -/
inductive JSValue where
  | undefinedV
  | nullV
  | boolV (b : Bool)
  | numV (q : ℚ)
  | nanV
  | strV (s : String)
  | objV
deriving DecidableEq, Repr

/-- JavaScript truthiness: `undefined`, `null`, `false`, `0`, `NaN` and
the empty string are falsy; every other value is truthy. -/
def truthy : JSValue → Bool
  | .undefinedV => false
  | .nullV => false
  | .boolV b => b
  | .numV q => decide (q ≠ 0)
  | .nanV => false
  | .strV s => decide (s ≠ "")
  | .objV => true

/-- `_validateParams(params, required)`: collect the required keys whose
value is falsy; if any, throw a `VALIDATION_ERROR` whose `details.missing`
is that list, otherwise return normally (`none`). -/
def validateParams (params : String → JSValue) (required : List String) :
    Option JSError :=
  let missing := required.filter (fun key => !truthy (params key))
  if missing.length > 0 then
    some (createError .VALIDATION_ERROR
      ("Missing required parameters: " ++ String.intercalate ", " missing)
      (.missingD missing))
  else
    none

/-! ## Derived notions used by the theorems -/

/-- An error whose `type` field is one of the five taxonomy kinds named by
the spec (`STORAGE_ERROR` exists in the constant table but is produced by
the storage layer, not by the request layer). -/
def classifiedKind (e : JSError) : Prop :=
  e.etype = some ErrorType.RATE_LIMIT ∨
  e.etype = some ErrorType.AUTH_ERROR ∨
  e.etype = some ErrorType.NETWORK_ERROR ∨
  e.etype = some ErrorType.VALIDATION_ERROR ∨
  e.etype = some ErrorType.GENERIC_ERROR

/-- The transport and library layer throws raw errors: anything `fetch` or
`response.json()` throws carries no `type` field. -/
def rawEnvironment {α : Type} (oracle : Nat → FetchOutcome α) : Prop :=
  ∀ i,
    (∀ e, oracle i = .thrown e → e.etype = none) ∧
    (∀ s ra em e, oracle i = .response s ra em (.fail e) → e.etype = none)

/-- A transient attempt outcome in the sense of claim C3: a 429 response,
or a raw thrown timeout (`AbortError`) or transport failure (`TypeError`
whose message mentions `fetch`). -/
def transient {α : Type} : FetchOutcome α → Prop
  | .response s _ _ _ => s = 429
  | .thrown e =>
      e.etype = none ∧
        (e.name = "AbortError" ∨
          (e.name = "TypeError" ∧ (e.message.splitOn "fetch").length > 1))

/-- The delay `_makeRequest` sleeps after a transient failure of attempt
`i` before attempt `i + 1`: the `retry-after` hint in milliseconds when
the outcome is a 429 response carrying one, otherwise the exponential
backoff for index `i`. -/
def attemptDelay {α : Type} (out : FetchOutcome α) (i : Nat) (r : ℚ) : ℚ :=
  match out with
  | .response _ (some s) _ _ => (s : ℚ) * 1000
  | _ => getExponentialBackoff i r

/-- The classified error `_makeRequest` throws when the final attempt
fails with the given transient outcome. -/
def terminalError {α : Type} (timeout : Nat) : FetchOutcome α → JSError
  | .response s ra _ _ =>
      createError .RATE_LIMIT "Rate limit exceeded" (.rateLimitD s ra)
  | .thrown e =>
      if e.name = "AbortError" then
        createError .NETWORK_ERROR "Request timed out" (.timeoutD timeout)
      else
        createError .NETWORK_ERROR ("Network error: " ++ e.message)
          (.networkD e.message)

/-! ## Concrete inputs used by counterexamples and witnesses -/

/-- An environment answering HTTP 500 on every attempt. -/
def oracle500 : Nat → FetchOutcome Nat :=
  fun _ => .response 500 none "boom" (.ok 0)

/-- A raw body-parse failure, as `response.json()` throws it on a 2xx
response with an invalid body: no `type` field. -/
def syntaxErr : JSError :=
  { name := "SyntaxError", message := "Unexpected token", etype := none,
    details := .emptyD }

/-- An environment answering HTTP 200 with an unparseable body on every
attempt. -/
def oracleParseFail : Nat → FetchOutcome Nat :=
  fun _ => .response 200 none "" (.fail syntaxErr)

/-- A raw timeout abort, as the `AbortController` produces it. -/
def abortErr : JSError :=
  { name := "AbortError", message := "The operation was aborted",
    etype := none, details := .emptyD }

/-- An environment answering 429 with a 2-second `retry-after` hint on
attempt 0 and a raw timeout on every later attempt. -/
def oracleTransient : Nat → FetchOutcome Nat :=
  fun i => if i = 0 then .response 429 (some 2) "" (.ok 0) else .thrown abortErr

/-- An environment answering HTTP 401 on every attempt. -/
def oracle401 : Nat → FetchOutcome Nat :=
  fun _ => .response 401 none "" (.ok 0)

/-- A zero `Math.random()` draw on every attempt. -/
def randZero : Nat → ℚ := fun _ => 0

/-- An entry that fulfils on its first invocation. -/
def entryOk : Entry := { id := 0, provider := "openai", rl := 0, final := .success 1 }

/-- An entry whose only invocation throws a non-rate-limit error. -/
def entryFail : Entry :=
  { id := 1, provider := "openai", rl := 0,
    final := .failure (createError .GENERIC_ERROR "boom" .emptyD) }

/-- An entry rate-limited twice before fulfilling. -/
def entryRL : Entry := { id := 2, provider := "openai", rl := 2, final := .success 7 }

/-- A state holding exactly `entryOk`, nothing in flight, empty
rate-limit map. -/
def stateQ0 : QMState :=
  { queue := [entryOk], inFlight := none, resolvedCount := 0,
    rateLimits := fun _ => none }

/-- `stateQ0` after the `shift()` that begins its drain step. -/
def stateQ1 : QMState := { stateQ0 with queue := [], inFlight := some entryOk }

/-- A state with `entryFail` in flight and an empty rate-limit map. -/
def stateF0 : QMState :=
  { queue := [], inFlight := some entryFail, resolvedCount := 0,
    rateLimits := fun _ => none }

/-- `stateF0` after its unit rejects. -/
def stateF1 : QMState := { stateF0 with inFlight := none, resolvedCount := 1 }

/-- A state with `entryOk` in flight and an empty rate-limit map. -/
def stateS0 : QMState :=
  { queue := [], inFlight := some entryOk, resolvedCount := 0,
    rateLimits := fun _ => none }

/-- Example parameter map: a present-but-empty `prompt`, a present
`model`. -/
def paramsEx : String → JSValue :=
  fun k => if k = "prompt" then .strV "" else .strV "gpt"

/-! ## Theorems -/

/-- C5: for every attempt index `i` and every `Math.random()` draw
`r ∈ [0,1)`, `_getExponentialBackoff(i)` equals
`min(1000 * 2^i, 30000)` plus a jitter in `[0, 1000)` milliseconds, never
exceeds 31000 ms, and is non-decreasing in `i` pointwise in the draw
(hence also in expectation), for every `i` and in particular below the
index where `1000 * 2^i ≥ 30000`. -/
theorem C5_backoff_formula (i : Nat) (r : ℚ) (h0 : 0 ≤ r) (h1 : r < 1) :
    (∃ j : ℚ, 0 ≤ j ∧ j < 1000 ∧
        getExponentialBackoff i r = min (1000 * 2 ^ i : ℚ) 30000 + j) ∧
    getExponentialBackoff i r ≤ 31000 ∧
    getExponentialBackoff i r ≤ getExponentialBackoff (i + 1) r := by
  have hmin : min (1000 * 2 ^ i : ℚ) 30000 ≤ 30000 := min_le_right _ _
  have hj0 : (0 : ℚ) ≤ r * 1000 := by positivity
  have hj1 : r * 1000 < 1000 := by linarith
  refine ⟨⟨r * 1000, hj0, hj1, rfl⟩, ?_, ?_⟩
  · unfold getExponentialBackoff
    linarith
  · unfold getExponentialBackoff
    have hpow : (1000 * 2 ^ i : ℚ) ≤ 1000 * 2 ^ (i + 1) := by
      have h2 : (2 ^ i : ℚ) ≤ 2 ^ (i + 1) := by
        have := pow_le_pow_right₀ (a := (2 : ℚ)) (by norm_num) (Nat.le_succ i)
        exact this
      linarith
    have := min_le_min hpow (le_refl (30000 : ℚ))
    linarith

/-- Witness for C5 at `i = 0`, `r = 0`. -/
theorem C5_backoff_formula_witness :
    (∃ j : ℚ, 0 ≤ j ∧ j < 1000 ∧
        getExponentialBackoff 0 0 = min (1000 * 2 ^ 0 : ℚ) 30000 + j) ∧
    getExponentialBackoff 0 0 ≤ 31000 ∧
    getExponentialBackoff 0 0 ≤ getExponentialBackoff 1 0 :=
  C5_backoff_formula 0 0 (le_refl 0) (by norm_num)

/-- C9: when no `RateLimitState` is recorded for a provider, both
`_checkRateLimit` and `_waitForRateLimit` wait zero milliseconds, so a
rate-limited entry requeued for that provider is re-executed with no
delay between consecutive attempts. -/
theorem C9_no_state_zero_waits (rateLimits : RateLimits) (provider : String)
    (now : ℤ) (h : rateLimits provider = none) :
    checkRateLimitWait rateLimits provider now = 0 ∧
    waitForRateLimitWait rateLimits provider now = 0 := by
  simp [checkRateLimitWait, waitForRateLimitWait, h]

/-- Witness for C9 on the empty rate-limit map. -/
theorem C9_no_state_zero_waits_witness :
    checkRateLimitWait (fun _ => none) "openai" 1000 = 0 ∧
    waitForRateLimitWait (fun _ => none) "openai" 1000 = 0 :=
  C9_no_state_zero_waits (fun _ => none) "openai" 1000 rfl

/-- C10: `_validateParams` throws exactly when some required field has a
falsy value (absent, empty string, 0, null, false, NaN — not only absent
fields), and the `details.missing` list of the thrown `VALIDATION_ERROR`
is exactly the falsy required fields in the order of the required
list. -/
theorem C10_validateParams (params : String → JSValue) (required : List String) :
    ((validateParams params required).isSome ↔
      ∃ k ∈ required, truthy (params k) = false) ∧
    (∀ e, validateParams params required = some e →
      e.etype = some ErrorType.VALIDATION_ERROR ∧
      e.details = .missingD (required.filter (fun k => !truthy (params k)))) := by
  constructor
  · by_cases hmiss : (required.filter (fun k => !truthy (params k))).length > 0
    · have hne : required.filter (fun k => !truthy (params k)) ≠ [] := by
        intro hnil
        rw [hnil] at hmiss
        simp at hmiss
      rcases List.exists_mem_of_ne_nil _ hne with ⟨k, hk⟩
      have hk' := List.mem_filter.mp hk
      have hs : (validateParams params required).isSome := by
        simp only [validateParams]
        simp [hmiss]
      simp only [hs, true_iff]
      exact ⟨k, hk'.1, by simpa using hk'.2⟩
    · push_neg at hmiss
      have hnil : required.filter (fun k => !truthy (params k)) = [] :=
        List.eq_nil_of_length_eq_zero (Nat.le_zero.mp hmiss)
      have hs : validateParams params required = none := by
        simp only [validateParams]
        simp [hnil]
      rw [hs]
      simp only [Option.isSome_none, Bool.false_eq_true, false_iff]
      intro ⟨k, hkmem, hkf⟩
      have : k ∈ required.filter (fun k => !truthy (params k)) :=
        List.mem_filter.mpr ⟨hkmem, by simp [hkf]⟩
      simp [hnil] at this
  · intro e he
    simp only [validateParams] at he
    split at he
    · cases he
      exact ⟨rfl, rfl⟩
    · cases he

/-- Witness for C10: with a present-but-empty `prompt`, validation throws
and reports exactly `["prompt"]` missing. -/
theorem C10_validateParams_witness :
    ((validateParams paramsEx ["prompt", "model"]).isSome ↔
      ∃ k ∈ ["prompt", "model"], truthy (paramsEx k) = false) ∧
    (createError .VALIDATION_ERROR "Missing required parameters: prompt"
        (.missingD ["prompt"])).etype = some ErrorType.VALIDATION_ERROR ∧
    (createError .VALIDATION_ERROR "Missing required parameters: prompt"
        (.missingD ["prompt"])).details =
      .missingD (["prompt", "model"].filter (fun k => !truthy (paramsEx k))) := by
  refine ⟨(C10_validateParams paramsEx ["prompt", "model"]).1, ?_⟩
  exact (C10_validateParams paramsEx ["prompt", "model"]).2 _ (by decide)

/-- C1 counterexample: with a retry budget of 3 and a 500 response on the
first attempt, `_makeRequest` propagates the `GENERIC_ERROR` at once,
sleeping zero times — not the 3 backoff sleeps the claim predicts for a
run whose every attempt would fail generically.  The created error has a
truthy `type`, so the catch block rethrows it instead of taking the
retry-with-backoff path. -/
theorem C1_counterexample :
    (makeRequest 60000 3 oracle500 randZero).1 =
      .error (createError .GENERIC_ERROR "API error: boom" (.genericD 500)) ∧
    (makeRequest 60000 3 oracle500 randZero).2 = [] ∧
    ¬ (makeRequest 60000 3 oracle500 randZero).2.length = 3 := by
  refine ⟨rfl, rfl, by decide⟩

/-- C1 amended: a first-attempt response with a non-2xx status other than
429, 401 and 403 makes `_makeRequest` throw the classified
`GENERIC_ERROR` immediately, with no backoff sleep and no further
attempt, regardless of the remaining retry budget. -/
theorem C1_generic_error_propagates_immediately {α : Type}
    (timeout retries : Nat) (oracle : Nat → FetchOutcome α) (rand : Nat → ℚ)
    (s : Nat) (ra : Option Nat) (em : String) (body : ParseResult α)
    (h0 : oracle 0 = .response s ra em body)
    (h429 : s ≠ 429) (h401 : s ≠ 401) (h403 : s ≠ 403)
    (hok : responseOk s = false) :
    makeRequest timeout retries oracle rand =
      (.error (createError .GENERIC_ERROR ("API error: " ++ em) (.genericD s)),
       []) := by
  unfold makeRequest
  simp [runLoop, h0, attemptStep, catchBlock, createError, h429, h401, h403, hok]

/-- Witness for the amended C1 at a concrete 500 response. -/
theorem C1_generic_error_propagates_immediately_witness :
    makeRequest 60000 3 oracle500 randZero =
      (.error (createError .GENERIC_ERROR ("API error: " ++ "boom")
        (.genericD 500)), []) :=
  C1_generic_error_propagates_immediately 60000 3 oracle500 randZero
    500 none "boom" (.ok 0) rfl (by decide) (by decide) (by decide) (by decide)

/-- C4: a request whose first attempt yields HTTP 401 or 403, or whose
first attempt throws an error already classified `AUTH_ERROR` or
`VALIDATION_ERROR`, is settled after exactly one attempt with no backoff
sleep, regardless of the retry budget; the propagated error carries the
corresponding type. -/
theorem C4_auth_validation_never_retried {α : Type}
    (timeout retries : Nat) (oracle : Nat → FetchOutcome α) (rand : Nat → ℚ)
    (h : (∃ s ra em body, oracle 0 = .response s ra em body ∧
            (s = 401 ∨ s = 403)) ∨
         (∃ e, oracle 0 = .thrown e ∧
            (e.etype = some ErrorType.AUTH_ERROR ∨
             e.etype = some ErrorType.VALIDATION_ERROR))) :
    ∃ e, makeRequest timeout retries oracle rand = (.error e, []) ∧
      (e.etype = some ErrorType.AUTH_ERROR ∨
       e.etype = some ErrorType.VALIDATION_ERROR) := by
  unfold makeRequest
  rcases h with ⟨s, ra, em, body, h0, hs⟩ | ⟨e, h0, he⟩
  · refine ⟨createError .AUTH_ERROR "Authentication failed" (.authD s), ?_, ?_⟩
    · rcases hs with rfl | rfl <;>
        simp [runLoop, h0, attemptStep, catchBlock, createError]
    · left; rfl
  · rcases he with he | he
    · refine ⟨e, ?_, Or.inl he⟩
      simp [runLoop, h0, attemptStep, catchBlock, he]
    · refine ⟨e, ?_, Or.inr he⟩
      simp [runLoop, h0, attemptStep, catchBlock, he]

/-- Witness for C4 at a concrete 401 response with budget 3. -/
theorem C4_auth_validation_never_retried_witness :
    ∃ e, makeRequest 60000 3 oracle401 randZero = (.error e, []) ∧
      (e.etype = some ErrorType.AUTH_ERROR ∨
       e.etype = some ErrorType.VALIDATION_ERROR) :=
  C4_auth_validation_never_retried 60000 3 oracle401 randZero
    (Or.inl ⟨401, none, "", .ok 0, rfl, Or.inl rfl⟩)

/-- Helper: every error the catch block settles with is either classified,
or is the raw incoming error rethrown after the budget (only possible when
no attempts remain), or is an incoming error that already carried a
`type` field. -/
theorem catchBlock_done_error {α : Type} (timeout retries attempt : Nat)
    (rand : ℚ) (e e' : JSError)
    (h : catchBlock (α := α) timeout retries attempt rand e = .done (.error e')) :
    classifiedKind e' ∨
      (e' = e ∧ e.etype = none ∧ retries ≤ attempt) ∨
      (e' = e ∧ ∃ t, e.etype = some t) := by
  unfold catchBlock at h
  by_cases h1 : e.etype = some ErrorType.AUTH_ERROR
  · rw [if_pos h1] at h
    obtain rfl : e = e' := Except.error.inj (StepResult.done.inj h)
    exact Or.inl (Or.inr (Or.inl h1))
  rw [if_neg h1] at h
  by_cases h2 : e.etype = some ErrorType.VALIDATION_ERROR
  · rw [if_pos h2] at h
    obtain rfl : e = e' := Except.error.inj (StepResult.done.inj h)
    exact Or.inl (Or.inr (Or.inr (Or.inr (Or.inl h2))))
  rw [if_neg h2] at h
  by_cases h3 : e.name = "AbortError"
  · rw [if_pos h3] at h
    by_cases h4 : attempt < retries
    · rw [if_pos h4] at h
      exact absurd h (by simp)
    · rw [if_neg h4] at h
      obtain rfl := (Except.error.inj (StepResult.done.inj h)).symm
      exact Or.inl (Or.inr (Or.inr (Or.inl rfl)))
  rw [if_neg h3] at h
  by_cases h5 : e.name = "TypeError" ∧ (e.message.splitOn "fetch").length > 1
  · rw [if_pos h5] at h
    by_cases h6 : attempt < retries
    · rw [if_pos h6] at h
      exact absurd h (by simp)
    · rw [if_neg h6] at h
      obtain rfl := (Except.error.inj (StepResult.done.inj h)).symm
      exact Or.inl (Or.inr (Or.inr (Or.inl rfl)))
  rw [if_neg h5] at h
  by_cases h7 : e.etype.isSome
  · rw [if_pos (by simpa using h7)] at h
    obtain rfl : e = e' := Except.error.inj (StepResult.done.inj h)
    rcases ht : e.etype with _ | t
    · rw [ht] at h7
      simp at h7
    · exact Or.inr (Or.inr ⟨rfl, t, rfl⟩)
  rw [if_neg (by simpa using h7)] at h
  by_cases h8 : attempt < retries
  · rw [if_pos h8] at h
    exact absurd h (by simp)
  · rw [if_neg h8] at h
    obtain rfl : e = e' := Except.error.inj (StepResult.done.inj h)
    refine Or.inr (Or.inl ⟨rfl, ?_, by omega⟩)
    rcases ht : e.etype with _ | t
    · rfl
    · rw [ht] at h7
      simp at h7

/-- Helper: the catch block only sleeps and continues while attempts
remain. -/
theorem catchBlock_retry_lt {α : Type} (timeout retries attempt : Nat)
    (rand : ℚ) (e : JSError) (d : ℚ)
    (h : catchBlock (α := α) timeout retries attempt rand e = .retry d) :
    attempt < retries := by
  unfold catchBlock at h
  by_cases h1 : e.etype = some ErrorType.AUTH_ERROR
  · rw [if_pos h1] at h
    exact absurd h (by simp)
  rw [if_neg h1] at h
  by_cases h2 : e.etype = some ErrorType.VALIDATION_ERROR
  · rw [if_pos h2] at h
    exact absurd h (by simp)
  rw [if_neg h2] at h
  by_cases h3 : e.name = "AbortError"
  · rw [if_pos h3] at h
    by_cases h4 : attempt < retries
    · exact h4
    · rw [if_neg h4] at h
      exact absurd h (by simp)
  rw [if_neg h3] at h
  by_cases h5 : e.name = "TypeError" ∧ (e.message.splitOn "fetch").length > 1
  · rw [if_pos h5] at h
    by_cases h6 : attempt < retries
    · exact h6
    · rw [if_neg h6] at h
      exact absurd h (by simp)
  rw [if_neg h5] at h
  by_cases h7 : e.etype.isSome
  · rw [if_pos (by simpa using h7)] at h
    exact absurd h (by simp)
  rw [if_neg (by simpa using h7)] at h
  by_cases h8 : attempt < retries
  · exact h8
  · rw [if_neg h8] at h
    exact absurd h (by simp)

/-- Helper: the attempt loop only sleeps and continues while attempts
remain. -/
theorem attemptStep_retry_lt {α : Type} (timeout retries attempt : Nat)
    (rand : ℚ) (out : FetchOutcome α) (d : ℚ)
    (h : attemptStep timeout retries attempt rand out = .retry d) :
    attempt < retries := by
  rcases out with ⟨status, retryAfter, errMessage, body⟩ | e
  · simp only [attemptStep] at h
    by_cases h429 : status = 429
    · rw [if_pos h429] at h
      by_cases hlt : attempt < retries
      · exact hlt
      · rw [if_neg hlt] at h
        exact catchBlock_retry_lt _ _ _ _ _ _ h
    rw [if_neg h429] at h
    by_cases hauth : status = 401 ∨ status = 403
    · rw [if_pos hauth] at h
      exact catchBlock_retry_lt _ _ _ _ _ _ h
    rw [if_neg hauth] at h
    by_cases hok : responseOk status
    · rw [if_neg (by simp [hok])] at h
      rcases body with data | ef
      · exact absurd h (by simp)
      · exact catchBlock_retry_lt _ _ _ _ _ _ h
    · rw [if_pos (by simp [hok])] at h
      exact catchBlock_retry_lt _ _ _ _ _ _ h
  · simp only [attemptStep] at h
    exact catchBlock_retry_lt _ _ _ _ _ _ h

/-- Helper: every error produced by one attempt step is classified, or is
the raw environment error after the budget, or carries a `type` the
environment already put on it. -/
theorem attemptStep_done_error {α : Type} (timeout retries attempt : Nat)
    (rand : ℚ) (out : FetchOutcome α) (e' : JSError)
    (hout : (∀ e, out = .thrown e → e.etype = none) ∧
            (∀ s ra em e, out = .response s ra em (.fail e) → e.etype = none))
    (h : attemptStep timeout retries attempt rand out = .done (.error e')) :
    classifiedKind e' ∨ (e'.etype = none ∧ retries ≤ attempt) := by
  rcases out with ⟨status, retryAfter, errMessage, body⟩ | e
  · simp only [attemptStep] at h
    by_cases h429 : status = 429
    · rw [if_pos h429] at h
      by_cases hlt : attempt < retries
      · rw [if_pos hlt] at h
        exact absurd h (by simp)
      · rw [if_neg hlt] at h
        rcases catchBlock_done_error _ _ _ _ _ _ h with hc | ⟨rfl, hnone, _⟩ | ⟨rfl, _, _⟩
        · exact Or.inl hc
        · cases hnone
        · exact Or.inl (Or.inl rfl)
    rw [if_neg h429] at h
    by_cases hauth : status = 401 ∨ status = 403
    · rw [if_pos hauth] at h
      rcases catchBlock_done_error _ _ _ _ _ _ h with hc | ⟨rfl, hnone, _⟩ | ⟨rfl, _, _⟩
      · exact Or.inl hc
      · cases hnone
      · exact Or.inl (Or.inr (Or.inl rfl))
    rw [if_neg hauth] at h
    by_cases hok : responseOk status
    · rw [if_neg (by simp [hok])] at h
      rcases body with data | ef
      · exact absurd h (by simp)
      · have hef : ef.etype = none := hout.2 status retryAfter errMessage ef rfl
        rcases catchBlock_done_error _ _ _ _ _ _ h
          with hc | ⟨rfl, hnone, hle⟩ | ⟨rfl, t, ht⟩
        · exact Or.inl hc
        · exact Or.inr ⟨hnone, hle⟩
        · rw [hef] at ht
          cases ht
    · rw [if_pos (by simp [hok])] at h
      rcases catchBlock_done_error _ _ _ _ _ _ h with hc | ⟨rfl, hnone, _⟩ | ⟨rfl, _, _⟩
      · exact Or.inl hc
      · cases hnone
      · exact Or.inl (Or.inr (Or.inr (Or.inr (Or.inr rfl))))
  · simp only [attemptStep] at h
    have he : e.etype = none := hout.1 e rfl
    rcases catchBlock_done_error _ _ _ _ _ _ h with hc | ⟨rfl, hnone, hle⟩ | ⟨rfl, t, ht⟩
    · exact Or.inl hc
    · exact Or.inr ⟨hnone, hle⟩
    · rw [he] at ht
      cases ht

/-- Helper: loop invariant for claim C2: every error the loop settles with
from attempt `attempt` is classified, or is raw and was rethrown after the
final attempt (so the run slept `retries - attempt` times). -/
theorem runLoop_error_classified {α : Type} (timeout retries : Nat)
    (oracle : Nat → FetchOutcome α) (rand : Nat → ℚ)
    (hraw : rawEnvironment oracle) :
    ∀ fuel attempt, attempt ≤ retries → attempt + fuel = retries + 1 →
      ∀ e, (runLoop timeout retries oracle rand fuel attempt).1 = .error e →
        classifiedKind e ∨
          (e.etype = none ∧
            attempt + (runLoop timeout retries oracle rand fuel attempt).2.length
              = retries) := by
  intro fuel
  induction fuel with
  | zero =>
    intro attempt hle hsum
    omega
  | succ fuel ih =>
    intro attempt hle hsum e he
    rcases hstep : attemptStep timeout retries attempt (rand attempt) (oracle attempt)
      with r | d
    · rw [runLoop] at he ⊢
      rw [hstep] at he ⊢
      simp only at he ⊢
      subst he
      rcases attemptStep_done_error _ _ _ _ _ _ (hraw attempt) hstep with hc | ⟨hn, hge⟩
      · exact Or.inl hc
      · exact Or.inr ⟨hn, by simp; omega⟩
    · have hlt := attemptStep_retry_lt _ _ _ _ _ _ hstep
      rw [runLoop] at he ⊢
      rw [hstep] at he ⊢
      simp only at he ⊢
      rcases ih (attempt + 1) (by omega) (by omega) e he with hc | ⟨hn, hlen⟩
      · exact Or.inl hc
      · refine Or.inr ⟨hn, ?_⟩
        simp only [List.length_cons]
        omega

/-- C2 counterexample: with retry budget 0, a 2xx response whose body
fails to parse makes `_makeRequest` rethrow the raw `SyntaxError` from
`response.json()` as-is — its `type` field is absent, so the caller
observes an unclassified library exception. -/
theorem C2_counterexample :
    (makeRequest 60000 0 oracleParseFail randZero).1 = .error syntaxErr ∧
    syntaxErr.etype = none :=
  ⟨rfl, rfl⟩

/-- C2 amended: provided the transport and library layer only throws raw
(untyped) errors, every failure of `_makeRequest` is either one of the
five classified kinds, or a raw error rethrown as-is after the full retry
budget was spent (`retries` sleeps, hence `retries + 1` attempts). -/
theorem C2_classified_or_raw_after_budget {α : Type} (timeout retries : Nat)
    (oracle : Nat → FetchOutcome α) (rand : Nat → ℚ)
    (hraw : rawEnvironment oracle) :
    ∀ e, (makeRequest timeout retries oracle rand).1 = .error e →
      classifiedKind e ∨
        (e.etype = none ∧
          (makeRequest timeout retries oracle rand).2.length = retries) := by
  intro e he
  have := runLoop_error_classified timeout retries oracle rand hraw
    (retries + 1) 0 (Nat.zero_le _) (by omega) e he
  simpa using this

/-- Witness for the amended C2 at the concrete parse-failure run. -/
theorem C2_classified_or_raw_after_budget_witness :
    classifiedKind syntaxErr ∨
      (syntaxErr.etype = none ∧
        (makeRequest 60000 0 oracleParseFail randZero).2.length = 0) := by
  refine C2_classified_or_raw_after_budget 60000 0 oracleParseFail randZero ?_
    syntaxErr rfl
  intro i
  constructor
  · intro e h
    simp [oracleParseFail] at h
  · intro s ra em e h
    simp only [oracleParseFail, FetchOutcome.response.injEq] at h
    rcases h with ⟨_, _, _, hb⟩
    cases hb
    rfl

/-- Helper: on a raw timeout or transport error, the catch block sleeps
the exponential backoff while attempts remain and otherwise settles with
the corresponding classified `NETWORK_ERROR`. -/
theorem catchBlock_transient {α : Type} (timeout retries attempt : Nat)
    (rand : ℚ) (e : JSError) (hnone : e.etype = none)
    (hname : e.name = "AbortError" ∨
      (e.name = "TypeError" ∧ (e.message.splitOn "fetch").length > 1)) :
    catchBlock (α := α) timeout retries attempt rand e =
      if attempt < retries then .retry (getExponentialBackoff attempt rand)
      else .done (.error (terminalError timeout (.thrown (α := α) e))) := by
  unfold catchBlock
  rw [if_neg (by simp [hnone]), if_neg (by simp [hnone])]
  rcases hname with habort | ⟨htype, hfetch⟩
  · rw [if_pos habort]
    by_cases hlt : attempt < retries
    · rw [if_pos hlt, if_pos hlt]
    · rw [if_neg hlt, if_neg hlt]
      simp [terminalError, habort]
  · rw [if_neg (by rw [htype]; decide), if_pos ⟨htype, hfetch⟩]
    by_cases hlt : attempt < retries
    · rw [if_pos hlt, if_pos hlt]
    · rw [if_neg hlt, if_neg hlt]
      simp [terminalError, htype]

/-- Helper: loop characterization for runs whose every remaining attempt
fails transiently (429, timeout, or fetch transport error): the loop
sleeps once per non-final attempt — the retry-after hint in milliseconds
when present, the exponential backoff otherwise — and settles with the
classified error corresponding to the final attempt. -/
theorem runLoop_transient {α : Type} (timeout retries : Nat)
    (oracle : Nat → FetchOutcome α) (rand : Nat → ℚ)
    (htr : ∀ i, i ≤ retries → transient (oracle i)) :
    ∀ fuel attempt, attempt ≤ retries → attempt + fuel = retries + 1 →
      runLoop timeout retries oracle rand fuel attempt =
        (.error (terminalError timeout (oracle retries)),
         (List.range' attempt (retries - attempt)).map
           (fun i => attemptDelay (oracle i) i (rand i))) := by
  intro fuel
  induction fuel with
  | zero =>
    intro attempt hle hsum
    omega
  | succ fuel ih =>
    intro attempt hle hsum
    have htra := htr attempt hle
    rw [runLoop]
    rcases hout : oracle attempt with ⟨status, retryAfter, errMessage, body⟩ | e
    · rw [hout] at htra
      obtain rfl : status = 429 := htra
      by_cases hlt : attempt < retries
      · have hstep : attemptStep (α := α) timeout retries attempt (rand attempt)
            (.response 429 retryAfter errMessage body) =
              .retry (attemptDelay (.response (α := α) 429 retryAfter errMessage body)
                attempt (rand attempt)) := by
          rcases retryAfter with _ | s
          · simp [attemptStep, attemptDelay, hlt]
          · simp [attemptStep, attemptDelay, hlt]
        simp only [hstep]
        rw [ih (attempt + 1) (by omega) (by omega)]
        have hr : retries - attempt = (retries - (attempt + 1)) + 1 := by omega
        rw [hr, List.range'_succ, List.map_cons, hout]
      · obtain rfl : attempt = retries := by omega
        have hstep : attemptStep (α := α) timeout attempt attempt (rand attempt)
            (.response 429 retryAfter errMessage body) =
              .done (.error (terminalError timeout
                (.response (α := α) 429 retryAfter errMessage body))) := by
          simp [attemptStep, catchBlock, createError, terminalError, hlt]
        simp only [hstep]
        rw [Nat.sub_self, hout]
        simp
    · rw [hout] at htra
      obtain ⟨hnone, hname⟩ := htra
      by_cases hlt : attempt < retries
      · have hstep : attemptStep (α := α) timeout retries attempt (rand attempt)
            (.thrown e) = .retry (attemptDelay (.thrown (α := α) e)
              attempt (rand attempt)) := by
          simp only [attemptStep]
          rw [catchBlock_transient timeout retries attempt (rand attempt) e hnone
            hname, if_pos hlt]
          simp [attemptDelay]
        simp only [hstep]
        rw [ih (attempt + 1) (by omega) (by omega)]
        have hr : retries - attempt = (retries - (attempt + 1)) + 1 := by omega
        rw [hr, List.range'_succ, List.map_cons, hout]
      · obtain rfl : attempt = retries := by omega
        have hstep : attemptStep (α := α) timeout attempt attempt (rand attempt)
            (.thrown e) = .done (.error (terminalError timeout
              (.thrown (α := α) e))) := by
          simp only [attemptStep]
          rw [catchBlock_transient timeout attempt attempt (rand attempt) e hnone
            hname, if_neg hlt]
        simp only [hstep]
        rw [Nat.sub_self, hout]
        simp
/-- C3: when every attempt fails transiently (a 429 response, a timeout,
or a fetch transport error), `_makeRequest` with retry budget `retries`
makes exactly `retries + 1` attempts (`retries` sleeps), then throws the
classified `RATE_LIMIT` or `NETWORK_ERROR` matching the final outcome;
the sleep after attempt `i` is exactly the retry-after hint in
milliseconds for a 429 carrying one, and otherwise
`min(1000 * 2^i, 30000)` plus a jitter in `[0, 1000)`, hence below
31000 ms. -/
theorem C3_transient_exhaustion {α : Type} (timeout retries : Nat)
    (oracle : Nat → FetchOutcome α) (rand : Nat → ℚ)
    (htr : ∀ i, i ≤ retries → transient (oracle i))
    (hr0 : ∀ i, 0 ≤ rand i) (hr1 : ∀ i, rand i < 1) :
    (makeRequest timeout retries oracle rand).2.length = retries ∧
    (makeRequest timeout retries oracle rand).1 =
      .error (terminalError timeout (oracle retries)) ∧
    ((terminalError (α := α) timeout (oracle retries)).etype =
        some ErrorType.RATE_LIMIT ∨
     (terminalError (α := α) timeout (oracle retries)).etype =
        some ErrorType.NETWORK_ERROR) ∧
    (makeRequest timeout retries oracle rand).2 =
      (List.range retries).map (fun i => attemptDelay (oracle i) i (rand i)) ∧
    (∀ i, i < retries →
      (∃ s ra em body, oracle i = .response s (some ra) em body ∧
        attemptDelay (oracle i) i (rand i) = (ra : ℚ) * 1000) ∨
      (∃ j : ℚ, 0 ≤ j ∧ j < 1000 ∧
        attemptDelay (oracle i) i (rand i) = min (1000 * 2 ^ i : ℚ) 30000 + j ∧
        attemptDelay (oracle i) i (rand i) < 31000)) := by
  have hmain := runLoop_transient timeout retries oracle rand htr (retries + 1) 0
    (Nat.zero_le _) (by omega)
  have hmk : makeRequest timeout retries oracle rand =
      (.error (terminalError timeout (oracle retries)),
       (List.range retries).map (fun i => attemptDelay (oracle i) i (rand i))) := by
    unfold makeRequest
    rw [hmain, Nat.sub_zero, ← List.range_eq_range']
  refine ⟨?_, ?_, ?_, ?_, ?_⟩
  · rw [hmk]
    simp
  · rw [hmk]
  · rcases hfin : oracle retries with ⟨s, ra, em, body⟩ | e
    · left
      simp [terminalError, createError]
    · by_cases hab : e.name = "AbortError"
      · right
        simp [terminalError, createError, hab]
      · right
        simp [terminalError, createError, hab]
  · rw [hmk]
  · intro i hi
    have htri := htr i (Nat.le_of_lt hi)
    rcases hout : oracle i with ⟨s, ra, em, body⟩ | e
    · rw [hout] at htri
      obtain rfl : s = 429 := htri
      rcases ra with _ | hint
      · right
        refine ⟨rand i * 1000, mul_nonneg (hr0 i) (by norm_num),
          by linarith [hr1 i], ?_, ?_⟩
        · simp [attemptDelay, getExponentialBackoff]
        · simp only [attemptDelay, getExponentialBackoff]
          have := min_le_right (1000 * 2 ^ i : ℚ) 30000
          linarith [hr1 i]
      · left
        exact ⟨429, hint, em, body, rfl, rfl⟩
    · right
      refine ⟨rand i * 1000, mul_nonneg (hr0 i) (by norm_num),
        by linarith [hr1 i], ?_, ?_⟩
      · simp [attemptDelay, getExponentialBackoff]
      · simp only [attemptDelay, getExponentialBackoff]
        have := min_le_right (1000 * 2 ^ i : ℚ) 30000
        linarith [hr1 i]

/-- Witness for C3: budget 1, a hinted 429 then a timeout. -/
theorem C3_transient_exhaustion_witness :
    (makeRequest 60000 1 oracleTransient randZero).2.length = 1 ∧
    (makeRequest 60000 1 oracleTransient randZero).1 =
      .error (terminalError 60000 (oracleTransient 1)) := by
  have h := C3_transient_exhaustion 60000 1 oracleTransient randZero
    (by
      intro i hi
      interval_cases i <;> simp [oracleTransient, transient, abortErr])
    (fun i => le_refl 0) (fun i => by norm_num [randZero])
  exact ⟨h.1, h.2.1⟩
/-- Helper: every event an entry contributes carries that entry id. -/
theorem entryTrace_events_id (e : Entry) (ev : QEvent) (h : ev ∈ entryTrace e) :
    ev.entryId = e.id := by
  unfold entryTrace at h
  rcases List.mem_append.mp h with h | h
  · rcases List.mem_map.mp h with ⟨k, _, rfl⟩
    rfl
  · rcases hf : e.final with v | err <;> rw [hf] at h <;>
      simp only [List.mem_singleton] at h <;> subst h <;> rfl

/-- Helper: a rate-limited entry contributes its current invocation event
followed by the trace of its requeued continuation. -/
theorem entryTrace_cons_of_lt (e : Entry) (h : e.attempt < e.rl) :
    entryTrace e = .executed e.id e.attempt :: entryTrace (bumpAttempt e) := by
  unfold entryTrace bumpAttempt
  have hr : e.rl - e.attempt + 1 = (e.rl - (e.attempt + 1) + 1) + 1 := by omega
  rw [hr, List.range_succ_eq_map, List.map_cons, List.map_map]
  have hfun : ((fun k => QEvent.executed e.id (e.attempt + k)) ∘ Nat.succ) =
      (fun k => QEvent.executed e.id (e.attempt + 1 + k)) := by
    funext k
    simp only [Function.comp_apply]
    congr 1
    omega
  rw [hfun]
  simp

/-- Helper: with enough fuel, draining a queue of settling entries
produces exactly the concatenation of the per-entry traces, in queue
order: each entry (including all re-executions caused by rate-limit
requeues at the head) runs to settlement before the next entry starts. -/
theorem drainQueue_eq_flatMap :
    ∀ fuel q, (∀ e ∈ q, settles e) → queueCost q ≤ fuel →
      drainQueue fuel q = q.flatMap entryTrace := by
  intro fuel
  induction fuel with
  | zero =>
    intro q hset hcost
    cases q with
    | nil => rfl
    | cons e rest =>
      exfalso
      have h1 : 1 ≤ entryCost e := by
        unfold entryCost
        omega
      have h2 : entryCost e ≤ queueCost (e :: rest) := by
        unfold queueCost
        simp only [List.map_cons, List.sum_cons]
        omega
      omega
  | succ fuel ih =>
    intro q hset hcost
    cases q with
    | nil => rfl
    | cons e rest =>
      have hcost' : entryCost e + queueCost rest ≤ fuel + 1 := by
        unfold queueCost at hcost ⊢
        simp only [List.map_cons, List.sum_cons] at hcost
        omega
      rw [drainQueue]
      by_cases hlt : e.attempt < e.rl
      · have hexec : execOutcome e = .failure (createError .RATE_LIMIT
            "Rate limit exceeded" (.rateLimitD 429 none)) := by
          unfold execOutcome
          rw [if_pos hlt]
        have hset' : ∀ x ∈ bumpAttempt e :: rest, settles x := by
          intro x hx
          rcases List.mem_cons.mp hx with rfl | hx
          · intro err herr
            exact hset e (List.mem_cons_self e rest) err herr
          · exact hset x (List.mem_cons_of_mem e hx)
        have hcost'' : queueCost (bumpAttempt e :: rest) ≤ fuel := by
          unfold queueCost entryCost at hcost' ⊢
          simp only [List.map_cons, List.sum_cons] at hcost' ⊢
          unfold bumpAttempt
          simp only
          omega
        rw [hexec]
        simp only []
        rw [if_pos (show isRateLimitError (createError .RATE_LIMIT
          "Rate limit exceeded" (.rateLimitD 429 none)) = true from rfl)]
        rw [ih (bumpAttempt e :: rest) hset' hcost'']
        rw [List.flatMap_cons, List.flatMap_cons,
          entryTrace_cons_of_lt e hlt]
        rfl
      · have hexec : execOutcome e = e.final := by
          unfold execOutcome
          rw [if_neg hlt]
        have hrange : e.rl - e.attempt = 0 := by omega
        have hset' : ∀ x ∈ rest, settles x :=
          fun x hx => hset x (List.mem_cons_of_mem e hx)
        have hcost'' : queueCost rest ≤ fuel := by
          have h1 : 1 ≤ entryCost e := by
            unfold entryCost
            omega
          omega
        rcases hf : e.final with v | err
        · rw [hexec, hf]
          simp only []
          rw [ih rest hset' hcost'']
          rw [List.flatMap_cons]
          unfold entryTrace
          rw [hrange, hf]
          simp [show List.range 1 = [0] from rfl]
        · have hnotrl : isRateLimitError err = false :=
            hset e (List.mem_cons_self e rest) err hf
          rw [hexec, hf]
          simp only []
          rw [if_neg (by simp [hnotrl])]
          rw [ih rest hset' hcost'']
          rw [List.flatMap_cons]
          unfold entryTrace
          rw [hrange, hf]
          simp [show List.range 1 = [0] from rfl]

/-- Helper: filtering distributes over flatMap. -/
theorem filter_flatMap {β γ : Type} (p : γ → Bool) (f : β → List γ) :
    ∀ l : List β, (l.flatMap f).filter p = l.flatMap (fun a => (f a).filter p) := by
  intro l
  induction l with
  | nil => rfl
  | cons a l ihl => simp [List.flatMap_cons, List.filter_append, ihl]

/-- C6: the drain order is FIFO with head reinsertion: for two entries
`a` before `b` in the submission order, the events belonging to them are
exactly the full trace of `a` (all its invocations — a rate-limited entry
is re-executed, not rejected — and its settlement) followed by the full
trace of `b`: `a` is never re-executed after anything of `b`, and every
re-execution of `a` precedes everything of `b`. -/
theorem C6_fifo_with_head_reinsertion (pre mid post : List Entry) (a b : Entry)
    (fuel : Nat)
    (hset : ∀ e ∈ pre ++ a :: mid ++ b :: post, settles e)
    (hfuel : queueCost (pre ++ a :: mid ++ b :: post) ≤ fuel)
    (hids : ∀ e ∈ pre ++ mid ++ post, e.id ≠ a.id ∧ e.id ≠ b.id) :
    (drainQueue fuel (pre ++ a :: mid ++ b :: post)).filter
        (fun ev => ev.entryId == a.id || ev.entryId == b.id) =
      entryTrace a ++ entryTrace b := by
  rw [drainQueue_eq_flatMap fuel _ hset hfuel]
  rw [filter_flatMap]
  rw [List.flatMap_append, List.flatMap_cons, List.flatMap_append,
    List.flatMap_cons]
  have hdrop : ∀ e : Entry, e.id ≠ a.id → e.id ≠ b.id →
      (entryTrace e).filter
        (fun ev => ev.entryId == a.id || ev.entryId == b.id) = [] := by
    intro e hea heb
    rw [List.filter_eq_nil_iff]
    intro ev hev
    have hid := entryTrace_events_id e ev hev
    simp [hid, hea, heb]
  have hkeep : ∀ e : Entry, e.id = a.id ∨ e.id = b.id →
      (entryTrace e).filter
        (fun ev => ev.entryId == a.id || ev.entryId == b.id) = entryTrace e := by
    intro e he
    rw [List.filter_eq_self]
    intro ev hev
    have hid := entryTrace_events_id e ev hev
    rcases he with h | h <;> simp [hid, h]
  have hpre : (pre.flatMap fun e => (entryTrace e).filter
      (fun ev => ev.entryId == a.id || ev.entryId == b.id)) = [] := by
    rw [List.flatMap_eq_nil_iff]
    intro e he
    have hmem : e ∈ pre ++ mid ++ post := by
      simp only [List.mem_append]
      exact Or.inl (Or.inl he)
    exact hdrop e (hids e hmem).1 (hids e hmem).2
  have hmid : (mid.flatMap fun e => (entryTrace e).filter
      (fun ev => ev.entryId == a.id || ev.entryId == b.id)) = [] := by
    rw [List.flatMap_eq_nil_iff]
    intro e he
    have hmem : e ∈ pre ++ mid ++ post := by
      simp only [List.mem_append]
      exact Or.inl (Or.inr he)
    exact hdrop e (hids e hmem).1 (hids e hmem).2
  have hpost : (post.flatMap fun e => (entryTrace e).filter
      (fun ev => ev.entryId == a.id || ev.entryId == b.id)) = [] := by
    rw [List.flatMap_eq_nil_iff]
    intro e he
    have hmem : e ∈ pre ++ mid ++ post := by
      simp only [List.mem_append]
      exact Or.inr he
    exact hdrop e (hids e hmem).1 (hids e hmem).2
  rw [hpre, hmid, hpost, hkeep a (Or.inl rfl), hkeep b (Or.inr rfl)]
  simp

/-- Witness for C6: a twice rate-limited head entry, a middle entry and a
failing tail entry. -/
theorem C6_fifo_with_head_reinsertion_witness :
    (drainQueue 5 ([] ++ entryRL :: [entryOk] ++ entryFail :: [])).filter
        (fun ev => ev.entryId == entryRL.id || ev.entryId == entryFail.id) =
      entryTrace entryRL ++ entryTrace entryFail := by
  refine C6_fifo_with_head_reinsertion [] [entryOk] [] entryRL entryFail 5
    ?_ (by decide) ?_
  · intro e he
    simp only [List.nil_append, List.cons_append, List.mem_cons,
      List.mem_singleton, List.not_mem_nil, or_false] at he
    rcases he with rfl | rfl | rfl
    · intro err herr
      cases herr
    · intro err herr
      cases herr
    · intro err herr
      cases herr
      rfl
  · intro e he
    simp only [List.nil_append, List.append_nil, List.mem_singleton] at he
    subst he
    exact ⟨by decide, by decide⟩

/-- Helper: `_updateRateLimit` always leaves a record for the provider. -/
theorem updateRateLimit_isSome (m : RateLimits) (p : String) (now : ℤ) :
    (updateRateLimit m p now p).isSome := by
  unfold updateRateLimit
  split_ifs <;> simp

/-- C7 counterexample: the claim is false on the code: `_processQueue`
removes the head entry with `shift()` when it begins executing, so the
externally observable queue length decreases one full awaited execution
before the entry fulfils or rejects.  The dequeue step from `stateQ0`
drops the length from 1 to 0 while `resolvedCount` stays 0. -/
theorem C7_counterexample :
    ¬ (∀ s s' : QMState, QMStep s s' →
        getQueueLength s' < getQueueLength s →
        s'.resolvedCount = s.resolvedCount + 1) := by
  intro hclaim
  have hstep : QMStep stateQ0 stateQ1 :=
    QMStep.dequeue stateQ0 entryOk [] rfl rfl
  have hlen : getQueueLength stateQ1 < getQueueLength stateQ0 := by
    simp [getQueueLength, stateQ0, stateQ1]
  have hres := hclaim stateQ0 stateQ1 hstep hlen
  simp [stateQ0, stateQ1] at hres

/-- C7 amended: per `submit` the length grows by exactly one; the length
drops by exactly one exactly when an entry is dequeued to begin execution
(before, not at, its fulfilment or rejection); settlement itself leaves
the length unchanged; and a dequeue immediately followed by a rate-limit
requeue restores the length, so the net externally observed length over a
rate-limited cycle is unchanged. -/
theorem C7_length_dynamics :
    (∀ s s' : QMState, QMStep s s' →
      (getQueueLength s' = getQueueLength s + 1 ∧
        s'.resolvedCount = s.resolvedCount) ∨
      (getQueueLength s' + 1 = getQueueLength s ∧
        s'.resolvedCount = s.resolvedCount ∧
        s.inFlight = none ∧ s'.inFlight.isSome) ∨
      (getQueueLength s' = getQueueLength s ∧
        s'.resolvedCount = s.resolvedCount + 1)) ∧
    (∀ s s' s'' : QMState, QMStep s s' → QMStep s' s'' →
      s.inFlight = none → s'.inFlight.isSome → s''.inFlight = none →
      s''.resolvedCount = s.resolvedCount →
      getQueueLength s'' = getQueueLength s) := by
  constructor
  · intro s s' hstep
    cases hstep with
    | enqueue e =>
      left
      simp [getQueueLength]
    | dequeue e rest hfree hq =>
      right
      left
      simp [getQueueLength, hq, hfree]
    | settleSuccess e v now hin hout =>
      right
      right
      simp [getQueueLength]
    | settleReject e err hin hout hnotrl =>
      right
      right
      simp [getQueueLength]
    | requeueRateLimit e err hin hout hrl =>
      left
      simp [getQueueLength]
  · intro s s' s'' h1 h2 hn hsome hn'' hres
    cases h1 with
    | enqueue e =>
      simp only at hsome
      rw [hn] at hsome
      simp at hsome
    | dequeue e rest hfree hq =>
      cases h2 with
      | enqueue e2 =>
        simp at hn''
      | dequeue e2 rest2 hfree2 hq2 =>
        simp at hfree2
      | settleSuccess e2 v now hin2 hout2 =>
        simp at hres
      | settleReject e2 err hin2 hout2 hnotrl2 =>
        simp at hres
      | requeueRateLimit e2 err hin2 hout2 hrl2 =>
        simp [getQueueLength, hq]
    | settleSuccess e v now hin hout =>
      rw [hn] at hin
      cases hin
    | settleReject e err hin hout hnotrl =>
      rw [hn] at hin
      cases hin
    | requeueRateLimit e err hin hout hrl =>
      rw [hn] at hin
      cases hin

/-- Witness for the amended C7 at the concrete dequeue step. -/
theorem C7_length_dynamics_witness :
    (getQueueLength stateQ1 = getQueueLength stateQ0 + 1 ∧
      stateQ1.resolvedCount = stateQ0.resolvedCount) ∨
    (getQueueLength stateQ1 + 1 = getQueueLength stateQ0 ∧
      stateQ1.resolvedCount = stateQ0.resolvedCount ∧
      stateQ0.inFlight = none ∧ stateQ1.inFlight.isSome) ∨
    (getQueueLength stateQ1 = getQueueLength stateQ0 ∧
      stateQ1.resolvedCount = stateQ0.resolvedCount + 1) :=
  C7_length_dynamics.1 stateQ0 stateQ1
    (QMStep.dequeue stateQ0 entryOk [] rfl rfl)

/-- C8 counterexample: the claim is false on the code: `_updateRateLimit`
is only called on the success path of `_processQueue`, so an attempt that
fails (here: a generic rejection for a provider with no recorded state)
leaves the `rateLimits` map untouched — no state is created on the first
observed request, and nothing is updated after a failed attempt. -/
theorem C8_counterexample :
    ¬ (∀ s s' : QMState, QMStep s s' → ∀ e : Entry,
        s.inFlight = some e → s'.inFlight = none →
        (s'.rateLimits e.provider).isSome) := by
  intro hclaim
  have hstep : QMStep stateF0 stateF1 :=
    QMStep.settleReject stateF0 entryFail
      (createError .GENERIC_ERROR "boom" .emptyD) rfl rfl rfl
  have hsome := hclaim stateF0 stateF1 hstep entryFail rfl rfl
  simp [stateF0, stateF1, entryFail] at hsome

/-- C8 amended: the per-provider `RateLimitState` is created lazily on
the first *successful* attempt and updated after every successful
attempt; steps settling a failed or rate-limited attempt leave the map
identical. -/
theorem C8_update_only_on_success :
    ∀ s s' : QMState, QMStep s s' → ∀ e : Entry, s.inFlight = some e →
      ((∃ v, execOutcome e = .success v) → s'.inFlight = none →
        (∃ now, s'.rateLimits = updateRateLimit s.rateLimits e.provider now) ∧
        (s'.rateLimits e.provider).isSome) ∧
      ((∀ v, execOutcome e ≠ .success v) → s'.rateLimits = s.rateLimits) := by
  intro s s' hstep e hin
  cases hstep with
  | enqueue e2 =>
    constructor
    · intro _ hnone
      simp only at hnone
      rw [hnone] at hin
      cases hin
    · intro _
      rfl
  | dequeue e2 rest hfree hq =>
    rw [hfree] at hin
    cases hin
  | settleSuccess e2 v now hin2 hout2 =>
    rw [hin2] at hin
    obtain rfl : e2 = e := Option.some.inj hin
    constructor
    · intro _ _
      exact ⟨⟨now, rfl⟩, updateRateLimit_isSome _ _ _⟩
    · intro hnot
      exact absurd hout2 (hnot v)
  | settleReject e2 err hin2 hout2 hnotrl2 =>
    rw [hin2] at hin
    obtain rfl : e2 = e := Option.some.inj hin
    constructor
    · intro ⟨v, hv⟩ _
      rw [hv] at hout2
      cases hout2
    · intro _
      rfl
  | requeueRateLimit e2 err hin2 hout2 hrl2 =>
    rw [hin2] at hin
    obtain rfl : e2 = e := Option.some.inj hin
    constructor
    · intro ⟨v, hv⟩ _
      rw [hv] at hout2
      cases hout2
    · intro _
      rfl

/-- Witness for the amended C8 at a concrete successful settlement. -/
theorem C8_update_only_on_success_witness :
    (∃ now, (updateRateLimit stateS0.rateLimits entryOk.provider 100) =
        updateRateLimit stateS0.rateLimits entryOk.provider now) ∧
    ((updateRateLimit stateS0.rateLimits entryOk.provider 100)
        entryOk.provider).isSome := by
  have h := (C8_update_only_on_success stateS0
    { queue := stateS0.queue, inFlight := none,
      resolvedCount := stateS0.resolvedCount + 1,
      rateLimits := updateRateLimit stateS0.rateLimits entryOk.provider 100 }
    (QMStep.settleSuccess stateS0 entryOk 1 100 rfl rfl) entryOk rfl).1
    ⟨1, rfl⟩ rfl
  exact h
end OracleWorld
